import Mathlib

/-!
# Verification of the YARRRML-driven RDF-star ETL engine

Shallow embedding of the mapping-driven generation engine of
`rdf_star_etl_yarrrml.py` (together with the `TriplesMap` data model of
`yarrrml_parser.py`), and proofs about the claims of the specification.

Conventions of the embedding:
* Python strings are Lean `String`s; row cells hold textual values.
* A data row (`polars` row dictionary) is an association list
  `List (String × String)`; a missing column and a null cell both read back
  as `none` (in the Python code both `dict.get` results are falsy and both
  sanitize to `"unknown"`, so the two are observationally identical in every
  code path that is modelled here).
* `lru_cache` memoisation is semantically transparent and is not modelled.
* Blank-node creation (`BlankNode()`) is modelled by a counter threaded
  through generation together with a caller-supplied labelling function,
  so that distinct calls yield distinct identities and theorems can
  quantify over the labels the store would assign.
-/

namespace Yarrrml

/-! ## Character-level helpers -/

/-- Word characters of the Latin-1 supplement (code points `0x80`–`0xFF`)
as matched by Python's Unicode `\w` class (`re`'s word characters are the
Unicode alphanumerics plus the underscore).  The listed code points are the
Latin-1 alphanumerics: the feminine/masculine ordinal indicators, the
superscript digits, the micro sign, the vulgar fractions and the accented
letters (excluding `×` and `÷`). -/
def latin1Word (n : Nat) : Bool :=
  n == 0xAA || n == 0xB2 || n == 0xB3 || n == 0xB5 || n == 0xB9 || n == 0xBA ||
  (0xBC ≤ n && n ≤ 0xBE) || (0xC0 ≤ n && n ≤ 0xD6) ||
  (0xD8 ≤ n && n ≤ 0xF6) || (0xF8 ≤ n && n ≤ 0xFF)

/-- Python's `\w` character class for `str` patterns (Unicode mode), as used
by `URI_SANITIZE_PATTERN = re.compile(r'[^\w\-.]')`.  Exact on code points
below `0x100` (ASCII alphanumerics, underscore, Latin-1 alphanumerics).
Code points at `0x100` and above are treated as word characters; this
over-approximates Python's Unicode alphanumeric class, and no theorem of
this development depends on the classification of that range. -/
def pyWordChar (c : Char) : Bool :=
  c.isAlphanum || c == '_' ||
  (0x80 ≤ c.toNat && c.toNat ≤ 0xFF && latin1Word c.toNat) ||
  0x100 ≤ c.toNat

/-- A character kept (not replaced by `'_'`) by `URI_SANITIZE_PATTERN.sub`:
the pattern `[^\w\-.]` matches every character that is neither a word
character nor `'-'` nor `'.'`, and every match is replaced by `'_'`. -/
def sanitizeKeep (c : Char) : Bool :=
  pyWordChar c || c == '-' || c == '.'

/-- One character of `URI_SANITIZE_PATTERN.sub('_', value)`. -/
def sanitizeChar (c : Char) : Char :=
  if sanitizeKeep c then c else '_'

/-! ## `sanitize_uri_component` -/

/-- Model of `sanitize_uri_component_cached` (rdf_star_etl_yarrrml.py:45-51): on the
empty string returns `"unknown"`; otherwise substitutes `'_'` for every
character matched by `[^\w\-.]`, falling back to `"unknown"` if the result
is empty (the substitution preserves length, so that fallback never fires
for nonempty input, but the code performs the test and so does the model). -/
def sanitize_uri_component_cached (value : String) : String :=
  if value = "" then "unknown"
  else
    let sanitized := String.mk (value.data.map sanitizeChar)
    if sanitized = "" then "unknown" else sanitized

/-- Model of `sanitize_uri_component` (rdf_star_etl_yarrrml.py:54-58): `None` and the
empty string map to `"unknown"`; every other value is converted to text and
sanitized.  `none` models Python `None` (and an absent column, which
`row.get(var, '')` turns into `''`, handled identically). -/
def sanitize_uri_component (value : Option String) : String :=
  match value with
  | none => "unknown"
  | some s => if s = "" then "unknown" else sanitize_uri_component_cached s

/-! ## `expand_uri` -/

/-- Lookup in a Python `dict` built from an association list: a later
binding of the same key overrides an earlier one. -/
def dictLookup (l : List (String × String)) (k : String) : Option String :=
  (l.reverse.find? (fun p => p.1 == k)).map (fun p => p.2)

/-- Model of Python's `':' in uri_template`. -/
def strHasColon (s : String) : Bool :=
  s.data.any (fun c => c == ':')

/-- Whether the first list is a leading segment of the second
(`str.startswith` on character lists). -/
def startsWithSeg : List Char → List Char → Bool
  | [], _ => true
  | _ :: _, [] => false
  | a :: as, b :: bs => a == b && startsWithSeg as bs

/-- Python's `uri_template.startswith('http')`. -/
def strStartsHttp (s : String) : Bool :=
  startsWithSeg "http".data s.data

/-- Python's `s.split(':', 1)`: the text before the first `':'` and the text
after it (the whole string and `[]` if no colon occurs). -/
def splitColon : List Char → List Char × List Char
  | [] => ([], [])
  | c :: cs =>
    if c = ':' then ([], cs)
    else
      let p := splitColon cs
      (c :: p.1, p.2)

/-- Model of `expand_uri_cached` (rdf_star_etl_yarrrml.py:61-69): if the string
contains `':'` and does not start with `"http"`, split at the first `':'`;
when the part before it is a declared prefix, return the namespace followed
by the local part, otherwise (and in all other cases) return the string
unchanged. -/
def expand_uri_cached (uri_template : String) (prefixes : List (String × String)) : String :=
  if strHasColon uri_template && !strStartsHttp uri_template then
    let p := splitColon uri_template.data
    match dictLookup prefixes (String.mk p.1) with
    | some ns => ns ++ String.mk p.2
    | none => uri_template
  else uri_template

/-- Model of `expand_uri` (rdf_star_etl_yarrrml.py:72-74), delegating to the cached
version (memoisation is transparent). -/
def expand_uri (uri_template : String) (prefixes : List (String × String)) : String :=
  expand_uri_cached uri_template prefixes

end Yarrrml

namespace Yarrrml

/-! ## Supporting lemmas on sanitization -/

/-- Sanitizing a character is idempotent: kept characters are kept again,
and the replacement character `'_'` is itself a word character. -/
theorem sanitizeChar_idem (c : Char) : sanitizeChar (sanitizeChar c) = sanitizeChar c := by
  unfold sanitizeChar
  by_cases h : sanitizeKeep c = true
  · simp [h]
  · simp [h]

/-- Every character produced by sanitization is kept by the character
class of the sanitizer. -/
theorem sanitizeKeep_sanitizeChar (c : Char) : sanitizeKeep (sanitizeChar c) = true := by
  unfold sanitizeChar
  by_cases h : sanitizeKeep c = true
  · simp [h]
  · simp [h]
    decide

theorem map_sanitizeChar_idem (l : List Char) :
    (l.map sanitizeChar).map sanitizeChar = l.map sanitizeChar := by
  induction l with
  | nil => rfl
  | cons c cs ih => simp [List.map_cons, sanitizeChar_idem, ih]

theorem all_sanitizeKeep_map (l : List Char) :
    (l.map sanitizeChar).all sanitizeKeep = true := by
  induction l with
  | nil => rfl
  | cons c cs ih => simp [List.map_cons, List.all_cons, sanitizeKeep_sanitizeChar, ih]

end Yarrrml


namespace Yarrrml

theorem data_ne_nil_of_ne_empty (s : String) (h : s ≠ "") : s.data ≠ [] := by
  cases s with
  | mk l =>
    intro hc
    apply h
    have hl : l = [] := hc
    rw [hl]

/-- The character class `[A-Za-z0-9_.-]` that the specification claims the
sanitized output always matches. -/
def asciiSanitizedChar (c : Char) : Bool :=
  c.isAlphanum || c == '_' || c == '-' || c == '.'

/-! ## Claim C4 -/

/-- C4 counterexample: the sanitizer's regular expression is `[^\w\-.]`
with Python's Unicode `\w`, so the Latin-1 letter `é` is a word character
and survives sanitization unchanged — the sanitized output of `"é"` does
not match `[A-Za-z0-9_.-]+`, refuting the second half of the claim. -/
theorem sanitize_ascii_class_counterexample :
    sanitize_uri_component_cached "é" = "é" ∧
    ("é").data.all asciiSanitizedChar = false := by
  constructor
  · decide
  · decide

/-- C4 amended: `sanitize(sanitize(x)) = sanitize(x)` for every string `x`
(the idempotence half of the claim holds as stated); the sanitized output is
always nonempty and consists solely of characters kept by the sanitizer's
class — Python word characters (Unicode alphanumerics and underscore)
together with `'-'` and `'.'` — rather than of the narrower ASCII class
`[A-Za-z0-9_.-]` claimed. -/
theorem sanitize_idempotent_and_word_class (s : String) :
    sanitize_uri_component_cached (sanitize_uri_component_cached s) =
      sanitize_uri_component_cached s ∧
    (sanitize_uri_component_cached s).data.all sanitizeKeep = true ∧
    sanitize_uri_component_cached s ≠ "" := by
  by_cases hs : s = ""
  · subst hs
    refine ⟨by decide, by decide, by decide⟩
  · have hd : s.data ≠ [] := data_ne_nil_of_ne_empty s hs
    have hmapne : String.mk (s.data.map sanitizeChar) ≠ "" := by
      intro hcontra
      have : s.data.map sanitizeChar = [] := congrArg String.data hcontra
      simp at this
      exact hd this
    have h1 : sanitize_uri_component_cached s = String.mk (s.data.map sanitizeChar) := by
      unfold sanitize_uri_component_cached
      simp [hs, hmapne]
    refine ⟨?_, ?_, ?_⟩
    · rw [h1]
      unfold sanitize_uri_component_cached
      simp only [hmapne, if_false]
      rw [map_sanitizeChar_idem]
      rw [if_neg hmapne]
    · rw [h1]
      exact all_sanitizeKeep_map s.data
    · rw [h1]
      exact hmapne

end Yarrrml

namespace Yarrrml

/-! ## Claim C5 -/

/-- On a list `pre ++ ':' :: post` whose first part is colon-free,
splitting at the first colon recovers the two parts. -/
theorem splitColon_append (pre post : List Char) (h : pre.all (fun c => c ≠ ':') = true) :
    splitColon (pre ++ ':' :: post) = (pre, post) := by
  induction pre with
  | nil => simp [splitColon]
  | cons c cs ih =>
    simp only [List.all_cons, Bool.and_eq_true] at h
    have hc : ¬ c = ':' := by
      intro hcc
      rw [hcc] at h
      exact absurd h.1 (by decide)
    simp only [List.cons_append, splitColon, if_neg hc, List.append_eq, ih h.2]

/-- C5 counterexample: the string `"httpx:foo"` contains `prefix:local`
with `httpx` declared in the prefix table, yet expansion returns it
unchanged (and not `"http://e.org/foo"`), because the code short-circuits
on every string that starts with the four characters `"http"`.  This
refutes the claim's universally quantified conjunct. -/
theorem expand_uri_prefix_counterexample :
    dictLookup [("httpx", "http://e.org/")] "httpx" = some "http://e.org/" ∧
    expand_uri "httpx:foo" [("httpx", "http://e.org/")] = "httpx:foo" ∧
    ("httpx:foo" : String) ≠ "http://e.org/" ++ "foo" := by
  refine ⟨by decide, by decide, by decide⟩

/-- C5 amended: prefix expansion applies only to strings that contain `':'`
and do not start with `"http"`.  For such a string `p ++ ":" ++ loc` with
colon-free `p`: if `p` is a declared prefix the result is the namespace
followed by the local part, otherwise the string is unchanged.  Every
string starting with `"http"` (in particular an absolute `http(s)` IRI,
but also a prefixed name whose prefix begins with `"http"`) and every
colon-free string is returned unchanged. -/
theorem expand_uri_amended :
    (∀ t prefixes, strStartsHttp t = true → expand_uri t prefixes = t)
    ∧ (∀ t prefixes, strHasColon t = false → expand_uri t prefixes = t)
    ∧ (∀ p loc prefixes ns,
        p.data.all (fun c => c ≠ ':') = true →
        strStartsHttp (p ++ ":" ++ loc) = false →
        dictLookup prefixes p = some ns →
        expand_uri (p ++ ":" ++ loc) prefixes = ns ++ loc)
    ∧ (∀ p loc prefixes,
        p.data.all (fun c => c ≠ ':') = true →
        strStartsHttp (p ++ ":" ++ loc) = false →
        dictLookup prefixes p = none →
        expand_uri (p ++ ":" ++ loc) prefixes = p ++ ":" ++ loc) := by
  have hdata : ∀ p loc : String, (p ++ ":" ++ loc).data = p.data ++ ':' :: loc.data := by
    intro p loc
    rw [String.data_append, String.data_append, List.append_assoc]
    rfl
  have hcolon : ∀ p loc : String, strHasColon (p ++ ":" ++ loc) = true := by
    intro p loc
    unfold strHasColon
    rw [hdata]
    simp
  have hsplit : ∀ (p loc : String), p.data.all (fun c => c ≠ ':') = true →
      splitColon (p ++ ":" ++ loc).data = (p.data, loc.data) := by
    intro p loc h
    rw [hdata]
    exact splitColon_append p.data loc.data h
  refine ⟨?_, ?_, ?_, ?_⟩
  · intro t prefixes h
    unfold expand_uri expand_uri_cached
    rw [h]
    simp
  · intro t prefixes h
    unfold expand_uri expand_uri_cached
    rw [h]
    simp
  · intro p loc prefixes ns hnc hh hl
    unfold expand_uri expand_uri_cached
    rw [hcolon, hh]
    simp only [Bool.not_false, Bool.and_true]
    rw [hsplit p loc hnc]
    have hmk : String.mk p.data = p := String.ext rfl
    have hmk2 : String.mk loc.data = loc := String.ext rfl
    simp only [hmk, hmk2, hl]
    simp
  · intro p loc prefixes hnc hh hl
    unfold expand_uri expand_uri_cached
    rw [hcolon, hh]
    simp only [Bool.not_false, Bool.and_true]
    rw [hsplit p loc hnc]
    have hmk : String.mk p.data = p := String.ext rfl
    simp only [hmk, hl]
    simp

/-- C5 amended, witness: the three behaviours at concrete inputs — the
documented example, an absolute IRI, and an unknown prefix. -/
theorem expand_uri_amended_witness :
    expand_uri "https://x.org/a" [("ex", "http://e.org/")] = "https://x.org/a"
    ∧ expand_uri "ex:foo" [("ex", "http://e.org/")] = "http://e.org/" ++ "foo"
    ∧ expand_uri "zz:foo" [("ex", "http://e.org/")] = "zz" ++ ":" ++ "foo" :=
  ⟨expand_uri_amended.1 "https://x.org/a" _ (by decide),
   expand_uri_amended.2.2.1 "ex" "foo" _ "http://e.org/" (by decide) (by decide) (by decide),
   expand_uri_amended.2.2.2 "zz" "foo" _ (by decide) (by decide) (by decide)⟩

end Yarrrml

namespace Yarrrml

/-! ## Template engine -/

/-- A data row: one record of a `polars` DataFrame, mapping column names to
textual cell values.  A key that is absent models both a missing column and
a null cell (observationally identical in all modelled code paths). -/
abbrev Row := List (String × String)

/-- Python `row.get(k)`: the cell value, or `none`. -/
def rowGet (row : Row) (k : String) : Option String :=
  (row.find? (fun p => p.1 == k)).map (fun p => p.2)

/-- Model of `TEMPLATE_VAR_PATTERN.findall`, i.e. `re.findall` of the variable pattern:
left-to-right, non-overlapping occurrences of `$(` followed by at least one
non-`)` character and a closing `)`; each match contributes the captured
name.  Structural recursion on an explicit bound (the length of the text)
so that the function evaluates by kernel reduction; the bound is never
exhausted because every step consumes at least one character. -/
def scanVarsAux : Nat → List Char → List String
  | 0, _ => []
  | _ + 1, [] => []
  | fuel + 1, '$' :: '(' :: rest =>
    let name := rest.takeWhile (fun c => c != ')')
    let after := rest.dropWhile (fun c => c != ')')
    match after with
    | ')' :: tail =>
      if name.isEmpty then scanVarsAux fuel ('(' :: rest)
      else String.mk name :: scanVarsAux fuel tail
    | _ => scanVarsAux fuel ('(' :: rest)
  | fuel + 1, _ :: rest => scanVarsAux fuel rest

/-- The template variables of a template string, in order of occurrence
(with duplicates, as `findall` returns them). -/
def scanVars (template : String) : List String :=
  scanVarsAux template.data.length template.data

/-- Python `s.replace(pat, rep)`: replace every non-overlapping occurrence
of `pat`, scanning left to right.  Structural recursion on an explicit
bound, as in `scanVarsAux`; an empty pattern is never replaced (the engine
only ever passes nonempty patterns). -/
def replaceSegAux (pat rep : List Char) : Nat → List Char → List Char
  | _, [] => []
  | 0, l => l
  | fuel + 1, c :: cs =>
    if !pat.isEmpty && startsWithSeg pat (c :: cs) then
      rep ++ replaceSegAux pat rep fuel (cs.drop (pat.length - 1))
    else c :: replaceSegAux pat rep fuel cs

/-- Python `s.replace(pat, rep)` on strings. -/
def strReplace (s pat rep : String) : String :=
  String.mk (replaceSegAux pat.data rep.data s.data.length s.data)

/-- The text `$(v)` searched for when substituting variable `v`. -/
def varToken (v : String) : String :=
  "$(" ++ v ++ ")"

/-- The value substituted for one placeholder: `row.get(var, '')` followed
by `sanitize_uri_component` (an absent column yields `''`, a null cell
yields `None`; both sanitize to `"unknown"`, so both are `none` here). -/
def substValue (row : Row) (var : String) : String :=
  sanitize_uri_component (rowGet row var)

/-- Template instantiation with an arbitrary per-variable substitution
function: extract all placeholders, replace each `$(v)` by `f v` in order,
strip the `~iri` marker, then expand the prefix.  The engine instantiates
this with `substValue row`. -/
def instantiateWith (f : String → String) (template : String)
    (prefixes : List (String × String)) : String :=
  let vars := scanVars template
  let result := vars.foldl (fun acc v => strReplace acc (varToken v) (f v)) template
  expand_uri (strReplace result "~iri" "") prefixes

/-- Model of `_instantiate_template_single` (rdf_star_etl_yarrrml.py:545-558) and,
identically, the per-row body of `instantiate_template_vectorized`
(rdf_star_etl_yarrrml.py:86-103): substitute the sanitized row value for
every placeholder, strip `~iri`, expand the prefix. -/
def instantiate_template_single (template : String) (row : Row)
    (prefixes : List (String × String)) : String :=
  instantiateWith (substValue row) template prefixes

/-- Model of `instantiate_template_vectorized` (rdf_star_etl_yarrrml.py:86-103):
the per-row instantiation applied to every row of the DataFrame. -/
def instantiate_template_vectorized (template : String) (df : List Row)
    (prefixes : List (String × String)) : List String :=
  df.map (fun row => instantiate_template_single template row prefixes)

end Yarrrml

namespace Yarrrml

/-! ## Claim C3 -/

/-- C3: template instantiation against a row in which the variable `v` is
absent or empty behaves exactly as if the fixed sentinel `"unknown"` were
substituted for `$(v)`; the instantiation function is total (it never
fails), as the claim requires. -/
theorem template_missing_value_sentinel (template : String) (row : Row)
    (prefixes : List (String × String)) (v : String)
    (h : rowGet row v = none ∨ rowGet row v = some "") :
    instantiate_template_single template row prefixes =
      instantiateWith (fun x => if x == v then "unknown" else substValue row x)
        template prefixes := by
  unfold instantiate_template_single
  have hfg : (substValue row) =
      (fun x => if x == v then "unknown" else substValue row x) := by
    funext x
    by_cases hx : x == v
    · simp only [hx, if_true]
      have hxv : x = v := by
        have := hx
        simp at this
        exact this
      rw [hxv]
      unfold substValue
      rcases h with h | h
      · rw [h]
        rfl
      · rw [h]
        rfl
    · simp only [hx]
      simp
  exact congrArg (fun f => instantiateWith f template prefixes) hfg

/-- C3 witness: a concrete template over a row missing the `name` column;
the substituted value is the sentinel, and the final IRI embeds it. -/
theorem template_missing_value_sentinel_witness :
    rowGet [("id", "7")] "name" = none ∧
    instantiate_template_single "ex:$(name)" [("id", "7")] [("ex", "http://e.org/")] =
      instantiateWith (fun x => if x == "name" then "unknown" else substValue [("id", "7")] x)
        "ex:$(name)" [("ex", "http://e.org/")] ∧
    instantiate_template_single "ex:$(name)" [("id", "7")] [("ex", "http://e.org/")] =
      "http://e.org/unknown" :=
  ⟨by decide,
   template_missing_value_sentinel "ex:$(name)" [("id", "7")] [("ex", "http://e.org/")]
     "name" (Or.inl (by decide)),
   by decide⟩

end Yarrrml

namespace Yarrrml

/-! ## Term and statement model

`pyoxigraph` terms: `NamedNode` / `Literal` / `BlankNode`; a `BlankNode()`
identity is a counter value (threaded through generation) so distinct
creations are distinct.  A `Triple` is a base triple as cached by Pass 1:
its subject and predicate are always `NamedNode` IRIs there.  A `Quad`'s
object is either a term or (for `rdf:reifies` links) a quoted triple. -/

inductive Node where
  | iri (u : String)
  | lit (v : String) (datatype : Option String) (lang : Option String)
  | blank (id : Nat)
deriving DecidableEq

structure Triple where
  subj : String
  pred : String
  obj : Node
deriving DecidableEq

inductive QuadObj where
  | node (n : Node)
  | quoted (t : Triple)
deriving DecidableEq

structure Quad where
  subj : Node
  pred : String
  obj : QuadObj
  graph : Option String
deriving DecidableEq

/-! ## Mapping specification model (yarrrml_parser.py dataclasses)

Fields never read by the generation executor (`inverse_predicate`,
`condition`, `function`, `mapping_ref`, `templates`, `quoted_non_asserted`)
are omitted; `join_condition` is the parser's condition dictionary
(`{'equal': "str1=$(..), str2=$(..)"}` for the inline function form). -/

structure Source where
  name : String
  path : String
  format : String
deriving DecidableEq

structure PredicateObject where
  predicate : String
  value : String
  object_type : String
  datatype : Option String
  language : Option String
  graphs : List String
deriving DecidableEq

structure SubjectMapping where
  template : Option String
  is_quoted : Bool
  quoted_mapping_ref : Option String
  join_condition : Option (List (String × String))
  graphs : List String
deriving DecidableEq

structure TriplesMap where
  sources : List Source
  subject : SubjectMapping
  predicate_objects : List PredicateObject
  type_statements : List String
  graphs : List String
deriving DecidableEq

/-- A Triple Cache entry (`{'row_data': …, 'triple': …}`). -/
structure CacheEntry where
  row_data : Row
  triple : Triple
deriving DecidableEq

/-! ## Generation helpers -/

/-- Python truthiness of an optional string (`None` and `''` are falsy). -/
def isTruthy (o : Option String) : Bool :=
  match o with
  | some s => s != ""
  | none => false

/-- Python `a or b` on optional strings (`None` and `''` fall through). -/
def pyOrStr (a b : Option String) : Option String :=
  match a with
  | some s => if s = "" then b else some s
  | none => b

/-- Python `l[0] if l else None`. -/
def headOpt (l : List String) : Option String :=
  match l with
  | [] => none
  | g :: _ => some g

/-- Model of `create_quad_with_graph` (rdf_star_etl_yarrrml.py:77-83): attach the
expanded named graph when one is given (and truthy), else the default
graph. -/
def create_quad_with_graph (subject : Node) (predicate : String) (obj : QuadObj)
    (graph_uri : Option String) (prefixes : List (String × String)) : Quad :=
  match graph_uri with
  | some g => if g = "" then ⟨subject, predicate, obj, none⟩
              else ⟨subject, predicate, obj, some (expand_uri g prefixes)⟩
  | none => ⟨subject, predicate, obj, none⟩

/-- Python whitespace for `str.strip()`. -/
def pySpaceChar (c : Char) : Bool :=
  c == ' ' || c == '\t' || c == '\n' || c == '\r' ||
  c == Char.ofNat 11 || c == Char.ofNat 12

/-- Python `s.strip()`. -/
def pyStrip (s : String) : String :=
  String.mk (((s.data.dropWhile pySpaceChar).reverse.dropWhile pySpaceChar).reverse)

/-- Whether the first list is a trailing segment of the second
(`str.endswith`). -/
def endsWithSeg (pat l : List Char) : Bool :=
  startsWithSeg pat.reverse l.reverse

/-- The direct-column-reference test of the IRI object branch
(rdf_star_etl_yarrrml.py:361-362): `po.value.strip()` starts with `$(` and
ends with `)`; the column name is the slice `[2:-1]` of the stripped
value. -/
def directColRef (value : String) : Option String :=
  let v := pyStrip value
  if startsWithSeg "$(".data v.data && endsWithSeg ")".data v.data then
    some (String.mk ((v.data.drop 2).dropLast))
  else none

/-- Model of `df.columns`: the header of the DataFrame (every row of a `polars`
frame shares the same columns, so the first row carries them). -/
def dfColumns (df : List Row) : List String :=
  match df with
  | [] => []
  | r :: _ => r.map (fun p => p.1)

/-- The literal object of a predicate–object rule
(rdf_star_etl_yarrrml.py:392-398, language half): attach the language tag
when the rule declares a truthy one. -/
def mkLiteralLang (po : PredicateObject) (value : String) : Node :=
  match po.language with
  | some lang => if lang = "" then Node.lit value none none
                 else Node.lit value none (some lang)
  | none => Node.lit value none none

/-- The literal object of a predicate–object rule
(rdf_star_etl_yarrrml.py:392-398): a truthy datatype wins, then a truthy
language tag, else a plain literal. -/
def mkLiteral (po : PredicateObject) (value : String)
    (prefixes : List (String × String)) : Node :=
  match po.datatype with
  | some dt => if dt = "" then mkLiteralLang po value
               else Node.lit value (some (expand_uri dt prefixes)) none
  | none => mkLiteralLang po value

/-! ## Pass 1: `process_triples_map_vectorized` -/

/-- The type-statement section of Pass 1 (rdf_star_etl_yarrrml.py:335-350):
one `(subject, rdf:type, type)` quad and cache entry per declared type and
row.  `rows` pairs each data row with its instantiated subject IRI. -/
def typeSection (prefixes : List (String × String)) (rdfTypeUri : String)
    (defaultGraph : Option String) (rows : List (Row × String))
    (typeStatements : List String) : List (Quad × CacheEntry) :=
  typeStatements.flatMap (fun type_uri =>
    let type_full := expand_uri type_uri prefixes
    rows.map (fun rs =>
      let triple : Triple := ⟨rs.2, rdfTypeUri, Node.iri type_full⟩
      (create_quad_with_graph (Node.iri rs.2) rdfTypeUri
         (QuadObj.node (Node.iri type_full)) defaultGraph prefixes,
       ⟨rs.1, triple⟩)))

/-- The literal / template-IRI fallback of one predicate–object rule
(rdf_star_etl_yarrrml.py:383-421): one quad and cache entry per row, the
object being a literal or an instantiated IRI according to the declared
object kind. -/
def poFallback (prefixes : List (String × String)) (poGraph : Option String)
    (predicateUri : String) (rows : List (Row × String))
    (po : PredicateObject) : List (Quad × CacheEntry) :=
  if po.object_type == "literal" then
    rows.map (fun rs =>
      let value := instantiate_template_single po.value rs.1 prefixes
      let obj := mkLiteral po value prefixes
      let triple : Triple := ⟨rs.2, predicateUri, obj⟩
      (create_quad_with_graph (Node.iri rs.2) predicateUri (QuadObj.node obj)
         poGraph prefixes, ⟨rs.1, triple⟩))
  else
    rows.map (fun rs =>
      let obj := Node.iri (instantiate_template_single po.value rs.1 prefixes)
      let triple : Triple := ⟨rs.2, predicateUri, obj⟩
      (create_quad_with_graph (Node.iri rs.2) predicateUri (QuadObj.node obj)
         poGraph prefixes, ⟨rs.1, triple⟩))

/-- One predicate–object rule of Pass 1 (rdf_star_etl_yarrrml.py:352-421).
An IRI rule whose value is a direct `$(col)` reference uses the raw cell
value verbatim when it already looks like an absolute `http(s)` IRI,
instantiates the template otherwise, and yields nothing at all when the
referenced column is absent from the source. -/
def poSection (prefixes : List (String × String)) (df : List Row)
    (defaultGraph : Option String) (rows : List (Row × String))
    (po : PredicateObject) : List (Quad × CacheEntry) :=
  let predicateUri := expand_uri po.predicate prefixes
  let poGraph := match po.graphs with
                 | g :: _ => some g
                 | [] => defaultGraph
  if po.object_type == "iri" then
    match directColRef po.value with
    | some col =>
      if (dfColumns df).contains col then
        rows.map (fun rs =>
          let value := rowGet rs.1 col
          let obj : Node :=
            match value with
            | some v =>
              if v != "" && (startsWithSeg "http://".data v.data ||
                             startsWithSeg "https://".data v.data) then
                Node.iri v
              else Node.iri (instantiate_template_single po.value rs.1 prefixes)
            | none => Node.iri (instantiate_template_single po.value rs.1 prefixes)
          let triple : Triple := ⟨rs.2, predicateUri, obj⟩
          (create_quad_with_graph (Node.iri rs.2) predicateUri (QuadObj.node obj)
             poGraph prefixes, ⟨rs.1, triple⟩))
      else []
    | none => poFallback prefixes poGraph predicateUri rows po
  else poFallback prefixes poGraph predicateUri rows po

/-- The outcome of processing one triples map in Pass 1: the quads added to
the store, the entries appended to the Triple Cache, and any warnings
printed. -/
structure Pass1Result where
  quads : List Quad
  cache : List CacheEntry
  warnings : List String
deriving DecidableEq

/-- Model of `process_triples_map_vectorized` (rdf_star_etl_yarrrml.py:302-449):
skip quoted maps; warn and skip on a map with no sources; load only the
first declared source; skip empty frames and falsy subject templates; then
emit the type-statement quads followed by the per-rule quads, caching every
emitted triple with its originating row. -/
def process_triples_map_vectorized (prefixes : List (String × String))
    (rdfTypeUri : String) (load : String → List Row) (tm : TriplesMap) : Pass1Result :=
  if tm.subject.is_quoted then ⟨[], [], []⟩
  else
    match tm.sources with
    | [] => ⟨[], [], ["No sources defined, skipping"]⟩
    | source :: _ =>
      let df := load source.path
      if df.length = 0 then ⟨[], [], []⟩
      else
        match tm.subject.template with
        | none => ⟨[], [], []⟩
        | some subjTemplate =>
          if subjTemplate = "" then ⟨[], [], []⟩
          else
            let subject_uris := instantiate_template_vectorized subjTemplate df prefixes
            let rows := df.zip subject_uris
            let mapping_graph := headOpt tm.graphs
            let subject_graph := headOpt tm.subject.graphs
            let default_graph := pyOrStr mapping_graph subject_graph
            let pairs :=
              typeSection prefixes rdfTypeUri default_graph rows tm.type_statements ++
              tm.predicate_objects.flatMap (poSection prefixes df default_graph rows)
            ⟨pairs.map (fun p => p.1), pairs.map (fun p => p.2), []⟩

end Yarrrml

namespace Yarrrml

/-! ## Claim C6 -/

/-- An IRI-typed rule whose value is a single direct `$(col)` reference to
a column absent from the source is skipped wholesale; every other rule
emits one pair per row (rdf_star_etl_yarrrml.py:361-364). -/
def poRuleSkipped (po : PredicateObject) (df : List Row) : Bool :=
  po.object_type == "iri" &&
  (match directColRef po.value with
   | some col => !(dfColumns df).contains col
   | none => false)

/-- C6 fixture: one triples map with a single literal rule `[ex:p, $(v)]`
over one row `{id: "1"}` in which column `v` is absent. -/
def tmC6 : TriplesMap :=
  { sources := [⟨"d", "d.csv", "csv"⟩],
    subject := ⟨some "ex:s$(id)", false, none, none, []⟩,
    predicate_objects := [⟨"ex:p", "$(v)", "literal", none, none, []⟩],
    type_statements := [],
    graphs := [] }

/-- C6 fixture: the row source for `tmC6`. -/
def loadC6 : String → List Row := fun _ => [[("id", "1")]]

theorem typeSection_length (prefixes : List (String × String)) (rdfTypeUri : String)
    (dg : Option String) (rows : List (Row × String)) (ts : List String) :
    (typeSection prefixes rdfTypeUri dg rows ts).length = ts.length * rows.length := by
  induction ts with
  | nil => simp [typeSection]
  | cons a l ih =>
    simp only [typeSection, List.flatMap_cons, List.length_append, List.length_map] at ih ⊢
    rw [ih]
    simp [List.length_cons]
    ring

theorem poFallback_length (prefixes : List (String × String)) (poGraph : Option String)
    (predicateUri : String) (rows : List (Row × String)) (po : PredicateObject) :
    (poFallback prefixes poGraph predicateUri rows po).length = rows.length := by
  unfold poFallback
  split <;> simp [List.length_map]

theorem poSection_length (prefixes : List (String × String)) (df : List Row)
    (dg : Option String) (rows : List (Row × String)) (po : PredicateObject) :
    (poSection prefixes df dg rows po).length =
      if poRuleSkipped po df then 0 else rows.length := by
  unfold poSection poRuleSkipped
  cases hdc : directColRef po.value with
  | none =>
    by_cases htyp : (po.object_type == "iri") = true
    · simp [htyp, hdc, poFallback_length]
    · simp [htyp, hdc, poFallback_length]
  | some col =>
    by_cases htyp : (po.object_type == "iri") = true
    · by_cases hm : col ∈ dfColumns df
      · have hc : (dfColumns df).contains col = true := by simpa using hm
        simp [htyp, hdc, hc, hm, List.length_map]
      · have hc : ¬ (dfColumns df).contains col = true := by simpa using hm
        simp [htyp, hdc, hc, hm]
    · simp [htyp, hdc, poFallback_length]

theorem flatMap_poSection_length (prefixes : List (String × String)) (df : List Row)
    (dg : Option String) (rows : List (Row × String)) (pos : List PredicateObject) :
    (pos.flatMap (poSection prefixes df dg rows)).length =
      (pos.map (fun po => if poRuleSkipped po df then 0 else rows.length)).sum := by
  induction pos with
  | nil => rfl
  | cons p l ih =>
    simp only [List.flatMap_cons, List.length_append, List.map_cons, List.sum_cons,
      poSection_length, ih]

/-- C6 counterexample: with row `{id: "1"}` and the literal rule
`[ex:p, $(v)]`, the column `v` is absent, yet Pass 1 emits a base triple —
its object is the sentinel literal `"unknown"` — refuting the claim that no
triple is emitted when the referenced row value is absent or blank. -/
theorem po_rule_blank_value_counterexample :
    rowGet [("id", "1")] "v" = none ∧
    (process_triples_map_vectorized [("ex", "http://e.org/")]
      "http://www.w3.org/1999/02/22-rdf-syntax-ns#type" loadC6 tmC6).quads =
    [⟨Node.iri "http://e.org/s1", "http://e.org/p",
      QuadObj.node (Node.lit "unknown" none none), none⟩] := by
  constructor
  · decide
  · decide

/-- C6 amended: against one data row a predicate–object rule yields exactly
one (predicate, object) pair — an absent or blank referenced value is
rendered as the sentinel `"unknown"` inside the emitted term rather than
suppressing the pair — except that an IRI rule whose whole value is a
direct `$(col)` reference to a column absent from the source yields zero
pairs for every row.  Stated as a count: the quads emitted for a map are
one per declared type and row plus one per non-skipped rule and row. -/
theorem po_rule_pair_count (prefixes : List (String × String)) (rdfTypeUri : String)
    (load : String → List Row) (tm : TriplesMap) (source : Source)
    (rest : List Source) (t : String)
    (h1 : tm.subject.is_quoted = false)
    (hs : tm.sources = source :: rest)
    (ht : tm.subject.template = some t)
    (htne : t ≠ "")
    (hdfne : load source.path ≠ []) :
    (process_triples_map_vectorized prefixes rdfTypeUri load tm).quads.length =
      (load source.path).length * tm.type_statements.length +
      (tm.predicate_objects.map (fun po =>
          if poRuleSkipped po (load source.path) then 0
          else (load source.path).length)).sum := by
  unfold process_triples_map_vectorized
  rw [h1, hs, ht]
  have hlen : ¬ (load source.path).length = 0 := by
    intro hc
    exact hdfne (List.length_eq_zero.mp hc)
  simp only [Bool.false_eq_true, if_false, hlen, if_neg htne]
  simp only [List.map_append, List.length_map, List.length_append]
  rw [typeSection_length, flatMap_poSection_length]
  have hrows : ((load source.path).zip
      (instantiate_template_vectorized t (load source.path) prefixes)).length =
      (load source.path).length := by
    simp [List.length_zip, instantiate_template_vectorized, List.length_map]
  rw [hrows]
  ring

/-- C6 amended, witness: the fixture map emits exactly
`1 * 0 + (0 + 1) = 1` quad. -/
theorem po_rule_pair_count_witness :
    (process_triples_map_vectorized [("ex", "http://e.org/")]
      "http://www.w3.org/1999/02/22-rdf-syntax-ns#type" loadC6 tmC6).quads.length =
      (loadC6 "d.csv").length * tmC6.type_statements.length +
      (tmC6.predicate_objects.map (fun po =>
          if poRuleSkipped po (loadC6 "d.csv") then 0
          else (loadC6 "d.csv").length)).sum :=
  po_rule_pair_count [("ex", "http://e.org/")]
    "http://www.w3.org/1999/02/22-rdf-syntax-ns#type" loadC6 tmC6
    ⟨"d", "d.csv", "csv"⟩ [] "ex:s$(id)" rfl rfl rfl (by decide) (by decide)

end Yarrrml

namespace Yarrrml

/-! ## Pass 2: `process_quoted_triples_map` -/

/-- Substring containment, Python's `pat in s`. -/
def hasSeg (pat : List Char) : List Char → Bool
  | [] => startsWithSeg pat []
  | c :: cs => startsWithSeg pat (c :: cs) || hasSeg pat cs

/-- Model of the `re.search` for the `str1` parameter: the captured variable of the
leftmost occurrence of `str1=$(` followed by at least one non-`)` character
and a closing `)` (rdf_star_etl_yarrrml.py:538). -/
def searchStr1 : List Char → Option String
  | [] => none
  | c :: rest =>
    if startsWithSeg "str1=$(".data (c :: rest) then
      let afterPat := (c :: rest).drop 7
      let name := afterPat.takeWhile (fun ch => ch != ')')
      let after := afterPat.dropWhile (fun ch => ch != ')')
      match after with
      | ')' :: _ => if name.isEmpty then searchStr1 rest else some (String.mk name)
      | _ => searchStr1 rest
    else searchStr1 rest

/-- Model of `_extract_join_key` (rdf_star_etl_yarrrml.py:532-543): a falsy (absent
or empty) condition dictionary yields no key; otherwise the `str1` variable
of the `equal` parameter string is the single join key.  The `str2`
variable is never read. -/
def extract_join_key (join_condition : Option (List (String × String))) : Option String :=
  match join_condition with
  | none => none
  | some d =>
    if d.isEmpty then none
    else searchStr1 ((dictLookup d "equal").getD "").data

/-- Appending one entry under a key of the insertion-ordered index
(`cached_index[key_value].append(cached)` with default `[]`). -/
def indexInsert (idx : List (String × List CacheEntry)) (k : String)
    (e : CacheEntry) : List (String × List CacheEntry) :=
  match idx with
  | [] => [(k, [e])]
  | (k₁, l) :: rest =>
    if k₁ = k then (k₁, l ++ [e]) :: rest
    else (k₁, l) :: indexInsert rest k e

/-- The Pass-2 join index (rdf_star_etl_yarrrml.py:478-485): one pass over
the accumulated cache, keeping only entries whose subject IRI contains the
`/dataset/` fragment and whose join-key cell is truthy, grouped by the
join-key value. -/
def buildIndex (cacheAll : List CacheEntry) (joinKey : String) :
    List (String × List CacheEntry) :=
  cacheAll.foldl (fun idx cached =>
    match rowGet cached.row_data joinKey with
    | some v =>
      if hasSeg "/dataset/".data cached.triple.subj.data && v != "" then
        indexInsert idx v cached
      else idx
    | none => idx) []

/-- Model of `cached_index.get(join_value, [])`. -/
def lookupIndex (idx : List (String × List CacheEntry)) (v : String) :
    List CacheEntry :=
  match idx.find? (fun p => p.1 == v) with
  | some p => p.2
  | none => []

/-- The cached entries matching one annotation row
(rdf_star_etl_yarrrml.py:491-492): index lookup under the row's join-key
value (`None` finds nothing, since only truthy values are indexed). -/
def matchesFor (idx : List (String × List CacheEntry)) (joinKey : String)
    (row : Row) : List CacheEntry :=
  match rowGet row joinKey with
  | some v => lookupIndex idx v
  | none => []

/-- The annotation-property quads of one (annotation row, reifier) pair
(rdf_star_etl_yarrrml.py:506-524): one quad per predicate–object rule of
the annotation map, instantiated against the annotation row. -/
def annPOQuads (prefixes : List (String × String)) (tm : TriplesMap)
    (row : Row) (reifier : Nat) (labels : Nat → Nat) : List Quad :=
  tm.predicate_objects.map (fun po =>
    let predicate := expand_uri po.predicate prefixes
    let obj : Node :=
      if po.object_type == "iri" then
        Node.iri (instantiate_template_single po.value row prefixes)
      else mkLiteral po (instantiate_template_single po.value row prefixes) prefixes
    ⟨Node.blank (labels reifier), predicate, QuadObj.node obj, none⟩)

/-- The outcome of processing one quoted triples map in Pass 2: the quads
added to the store, the blank-identity counter after the map, the number of
annotation property quads (the `quoted_triples_generated` statistic), and
any warnings printed. -/
structure Pass2Result where
  quads : List Quad
  counter : Nat
  quotedCount : Nat
  warnings : List String
deriving DecidableEq

/-- The body of the inner Pass-2 loop (rdf_star_etl_yarrrml.py:494-524):
for one matching cached entry, create the fresh blank reifier (the current
counter value), emit the `rdf:reifies` link to the cached base triple
followed by the annotation property quads, and advance the counter and the
`quoted_triples_generated` statistic. -/
def pass2InnerStep (prefixes : List (String × String)) (tm : TriplesMap)
    (labels : Nat → Nat) (row : Row) (acc₂ : List Quad × Nat × Nat)
    (cached : CacheEntry) : List Quad × Nat × Nat :=
  let reifier := acc₂.2.1
  let reifQuad : Quad :=
    ⟨Node.blank (labels reifier), expand_uri "rdf:reifies" prefixes,
     QuadObj.quoted cached.triple, none⟩
  let pos := annPOQuads prefixes tm row reifier labels
  (acc₂.1 ++ (reifQuad :: pos), reifier + 1, acc₂.2.2 + pos.length)

/-- The body of the outer Pass-2 loop (rdf_star_etl_yarrrml.py:490-492):
process one annotation row's matching cached entries in cache order. -/
def pass2RowStep (prefixes : List (String × String)) (tm : TriplesMap)
    (labels : Nat → Nat) (idx : List (String × List CacheEntry))
    (joinKey : String) (acc : List Quad × Nat × Nat) (row : Row) :
    List Quad × Nat × Nat :=
  (matchesFor idx joinKey row).foldl (pass2InnerStep prefixes tm labels row) acc

/-- Model of `process_quoted_triples_map` (rdf_star_etl_yarrrml.py:451-530): skip a
map that is not quoted or lacks a (truthy) reference; warn when the cache
is empty; skip a map with no sources; read only the first source; when the
join key can be extracted, index the cache and, for every annotation row
and every matching cached entry, create a fresh blank reifier, emit the
`rdf:reifies` link to the cached base triple and then the annotation
property quads.  `labels` maps the fresh counter values to the blank-node
identities the store would assign. -/
def process_quoted_triples_map (prefixes : List (String × String))
    (load : String → List Row) (cacheAll : List CacheEntry)
    (labels : Nat → Nat) (tm : TriplesMap) (ctr : Nat) : Pass2Result :=
  if !(tm.subject.is_quoted && isTruthy tm.subject.quoted_mapping_ref) then
    ⟨[], ctr, 0, []⟩
  else if cacheAll.isEmpty then ⟨[], ctr, 0, ["No cached triples found"]⟩
  else
    match tm.sources with
    | [] => ⟨[], ctr, 0, []⟩
    | source :: _ =>
      let df := load source.path
      match extract_join_key tm.subject.join_condition with
      | none => ⟨[], ctr, 0, []⟩
      | some join_key =>
        let idx := buildIndex cacheAll join_key
        let step := df.foldl (pass2RowStep prefixes tm labels idx join_key) ([], ctr, 0)
        ⟨step.1, step.2.1, step.2.2, []⟩

end Yarrrml

namespace Yarrrml

/-! ## Pass 2 characterization -/

/-- The (annotation row, matching cached entry) pairs of one quoted map:
for each annotation row in order, each matching cached entry in cache
order. -/
def matchPairs (idx : List (String × List CacheEntry)) (joinKey : String)
    (df : List Row) : List (Row × CacheEntry) :=
  df.flatMap (fun row => (matchesFor idx joinKey row).map (fun c => (row, c)))

/-- The canonical quad sequence of Pass 2: one block per matching pair —
the `rdf:reifies` link under a fresh reifier followed by the annotation
property quads — with consecutive fresh counter values. -/
def linkBlocks (prefixes : List (String × String)) (tm : TriplesMap)
    (labels : Nat → Nat) : List (Row × CacheEntry) → Nat → List Quad
  | [], _ => []
  | rc :: rest, ctr =>
    (⟨Node.blank (labels ctr), expand_uri "rdf:reifies" prefixes,
      QuadObj.quoted rc.2.triple, none⟩ ::
     annPOQuads prefixes tm rc.1 ctr labels) ++
    linkBlocks prefixes tm labels rest (ctr + 1)

/-- The reifier identities created for a pair list, starting at a counter. -/
def blockReifiers : List (Row × CacheEntry) → Nat → List Nat
  | [], _ => []
  | _ :: rest, ctr => ctr :: blockReifiers rest (ctr + 1)

theorem annPOQuads_length (prefixes : List (String × String)) (tm : TriplesMap)
    (row : Row) (r : Nat) (labels : Nat → Nat) :
    (annPOQuads prefixes tm row r labels).length = tm.predicate_objects.length := by
  unfold annPOQuads
  exact List.length_map _ _

theorem linkBlocks_append (prefixes : List (String × String)) (tm : TriplesMap)
    (labels : Nat → Nat) (l₁ l₂ : List (Row × CacheEntry)) (ctr : Nat) :
    linkBlocks prefixes tm labels (l₁ ++ l₂) ctr =
      linkBlocks prefixes tm labels l₁ ctr ++
      linkBlocks prefixes tm labels l₂ (ctr + l₁.length) := by
  induction l₁ generalizing ctr with
  | nil => simp [linkBlocks]
  | cons rc rest ih =>
    simp only [List.cons_append, linkBlocks, List.append_eq, ih, List.length_cons,
      List.append_assoc]
    have h : ctr + 1 + rest.length = ctr + (rest.length + 1) := by omega
    rw [h]

theorem blockReifiers_eq_range' (l : List (Row × CacheEntry)) (ctr : Nat) :
    blockReifiers l ctr = List.range' ctr l.length := by
  induction l generalizing ctr with
  | nil => rfl
  | cons rc rest ih => simp [blockReifiers, List.range'_succ, ih]

/-- The inner fold of Pass 2 over one annotation row's matches, in closed
form. -/
theorem pass2_inner_foldl (prefixes : List (String × String)) (tm : TriplesMap)
    (labels : Nat → Nat) (row : Row) (ms : List CacheEntry)
    (acc : List Quad) (c n : Nat) :
    ms.foldl (pass2InnerStep prefixes tm labels row) (acc, c, n) =
    (acc ++ linkBlocks prefixes tm labels (ms.map (fun cc => (row, cc))) c,
     c + ms.length,
     n + ms.length * tm.predicate_objects.length) := by
  induction ms generalizing acc c n with
  | nil => simp [linkBlocks]
  | cons m rest ih =>
    simp only [List.foldl_cons, List.map_cons, linkBlocks, pass2InnerStep, ih]
    refine congrArg₂ _ ?_ (congrArg₂ _ ?_ ?_)
    · simp [List.append_assoc]
    · simp [List.length_cons]
      omega
    · simp [annPOQuads_length, List.length_cons]
      ring

/-- The outer fold of Pass 2 over all annotation rows, in closed form. -/
theorem pass2_outer_foldl (prefixes : List (String × String)) (tm : TriplesMap)
    (labels : Nat → Nat) (idx : List (String × List CacheEntry))
    (joinKey : String) (df : List Row) (acc : List Quad) (c n : Nat) :
    df.foldl (pass2RowStep prefixes tm labels idx joinKey) (acc, c, n) =
    (acc ++ linkBlocks prefixes tm labels (matchPairs idx joinKey df) c,
     c + (matchPairs idx joinKey df).length,
     n + (matchPairs idx joinKey df).length * tm.predicate_objects.length) := by
  induction df generalizing acc c n with
  | nil => simp [matchPairs, linkBlocks]
  | cons row rest ih =>
    simp only [List.foldl_cons, pass2RowStep, pass2_inner_foldl, ih, matchPairs,
      List.flatMap_cons]
    rw [linkBlocks_append]
    refine congrArg₂ _ ?_ (congrArg₂ _ ?_ ?_)
    · simp [List.append_assoc, List.length_map]
    · simp [List.length_append, List.length_map]
      omega
    · simp [List.length_append, List.length_map]
      ring

end Yarrrml

namespace Yarrrml

/-! ## Join-index membership -/

theorem mem_lookupIndex_indexInsert (idx : List (String × List CacheEntry))
    (k : String) (e c : CacheEntry) (v : String) :
    c ∈ lookupIndex (indexInsert idx k e) v ↔
      (c ∈ lookupIndex idx v ∨ (v = k ∧ c = e)) := by
  induction idx with
  | nil =>
    by_cases hv : k = v
    · subst hv
      simp [indexInsert, lookupIndex]
    · have hb : (k == v) = false := by simpa using hv
      simp [indexInsert, lookupIndex, List.find?, hb]
      intro hvk
      exact absurd hvk.symm hv
  | cons p rest ih =>
    obtain ⟨k₁, l⟩ := p
    by_cases hk : k₁ = k
    · subst hk
      by_cases hv : k₁ = v
      · subst hv
        simp [indexInsert, lookupIndex, List.find?]
      · have hb : (k₁ == v) = false := by simpa using hv
        simp [indexInsert, lookupIndex, List.find?, hb]
        intro hvk
        exact absurd hvk.symm hv
    · by_cases hv : k₁ = v
      · subst hv
        have hb : (k₁ == k₁) = true := by simp
        simp [indexInsert, lookupIndex, List.find?, hk, hb]
      · have hb : (k₁ == v) = false := by simpa using hv
        simp only [indexInsert, if_neg hk]
        unfold lookupIndex
        simp only [List.find?, hb]
        exact ih

theorem mem_lookupIndex_foldl (cacheAll : List CacheEntry) (joinKey : String)
    (idx₀ : List (String × List CacheEntry)) (v : String) (c : CacheEntry) :
    c ∈ lookupIndex (cacheAll.foldl (fun idx cached =>
        match rowGet cached.row_data joinKey with
        | some w =>
          if hasSeg "/dataset/".data cached.triple.subj.data && w != "" then
            indexInsert idx w cached
          else idx
        | none => idx) idx₀) v ↔
      (c ∈ lookupIndex idx₀ v ∨
       (c ∈ cacheAll ∧ rowGet c.row_data joinKey = some v ∧ v ≠ "" ∧
        hasSeg "/dataset/".data c.triple.subj.data = true)) := by
  induction cacheAll generalizing idx₀ with
  | nil => simp
  | cons e rest ih =>
    rw [List.foldl_cons, ih]
    cases hg : rowGet e.row_data joinKey with
    | none =>
      simp only [List.mem_cons]
      constructor
      · rintro (h | h)
        · exact Or.inl h
        · exact Or.inr ⟨Or.inr h.1, h.2⟩
      · rintro (h | ⟨he | hr, h2⟩)
        · exact Or.inl h
        · subst he
          rw [hg] at h2
          exact absurd h2.1 (by simp)
        · exact Or.inr ⟨hr, h2⟩
    | some w =>
      by_cases hcond : (hasSeg "/dataset/".data e.triple.subj.data && w != "") = true
      · simp only [hcond, if_true, mem_lookupIndex_indexInsert, List.mem_cons]
        rw [Bool.and_eq_true] at hcond
        constructor
        · rintro ((h | ⟨hv, hc⟩) | h)
          · exact Or.inl h
          · subst hc
            refine Or.inr ⟨Or.inl rfl, ?_, ?_, hcond.1⟩
            · rw [hg, hv]
            · subst hv
              simpa using hcond.2
          · exact Or.inr ⟨Or.inr h.1, h.2⟩
        · rintro (h | ⟨he | hr, h2⟩)
          · exact Or.inl (Or.inl h)
          · subst he
            rw [hg] at h2
            have : w = v := by
              have := h2.1
              simpa using this
            exact Or.inl (Or.inr ⟨this.symm, rfl⟩)
          · exact Or.inr ⟨hr, h2⟩
      · simp only [hcond, if_false, List.mem_cons]
        rw [Bool.not_eq_true, Bool.and_eq_false_iff] at hcond
        constructor
        · rintro (h | h)
          · exact Or.inl h
          · exact Or.inr ⟨Or.inr h.1, h.2⟩
        · rintro (h | ⟨he | hr, h2⟩)
          · exact Or.inl h
          · subst he
            rw [hg] at h2
            have hwv : w = v := by simpa using h2.1
            rcases hcond with hc1 | hc2
            · have hx := h2.2.2
              rw [hc1] at hx
              exact absurd hx (by simp)
            · subst hwv
              have := h2.2.1
              simp at hc2
              exact absurd hc2 this
          · exact Or.inr ⟨hr, h2⟩

/-- Membership in the join index: a cached entry is indexed under `v`
exactly when it occurs in the cache, its subject passes the `/dataset/`
filter, and its join-key cell holds the truthy value `v`. -/
theorem mem_lookupIndex_buildIndex (cacheAll : List CacheEntry) (joinKey v : String)
    (c : CacheEntry) :
    c ∈ lookupIndex (buildIndex cacheAll joinKey) v ↔
      (c ∈ cacheAll ∧ rowGet c.row_data joinKey = some v ∧ v ≠ "" ∧
       hasSeg "/dataset/".data c.triple.subj.data = true) := by
  unfold buildIndex
  rw [mem_lookupIndex_foldl]
  simp [lookupIndex, List.find?]

end Yarrrml

namespace Yarrrml

/-! ## Claims C1, C2, C8 -/

/-- The quoted base triple of an `rdf:reifies` quad, if any. -/
def extractQuoted (q : Quad) : Option Triple :=
  match q.obj with
  | QuadObj.quoted t => some t
  | _ => none

/-- Whether a quad's subject is a blank identity. -/
def blankSubject (q : Quad) : Bool :=
  match q.subj with
  | Node.blank _ => true
  | _ => false

theorem annPOQuads_all_blank (prefixes : List (String × String)) (tm : TriplesMap)
    (row : Row) (r : Nat) (labels : Nat → Nat) :
    (annPOQuads prefixes tm row r labels).all blankSubject = true := by
  unfold annPOQuads
  rw [List.all_eq_true]
  intro q hq
  rw [List.mem_map] at hq
  obtain ⟨po, hpo, hqe⟩ := hq
  rw [← hqe]
  rfl

theorem linkBlocks_all_blank (prefixes : List (String × String)) (tm : TriplesMap)
    (labels : Nat → Nat) (pairs : List (Row × CacheEntry)) (ctr : Nat) :
    (linkBlocks prefixes tm labels pairs ctr).all blankSubject = true := by
  induction pairs generalizing ctr with
  | nil => rfl
  | cons rc rest ih =>
    simp [linkBlocks, List.all_append, List.all_cons, ih, annPOQuads_all_blank,
      blankSubject]

theorem annPOQuads_filterMap_quoted (prefixes : List (String × String))
    (tm : TriplesMap) (row : Row) (r : Nat) (labels : Nat → Nat) :
    (annPOQuads prefixes tm row r labels).filterMap extractQuoted = [] := by
  unfold annPOQuads
  rw [List.filterMap_map]
  simp [extractQuoted]

theorem linkBlocks_filterMap_quoted (prefixes : List (String × String))
    (tm : TriplesMap) (labels : Nat → Nat) (pairs : List (Row × CacheEntry))
    (ctr : Nat) :
    (linkBlocks prefixes tm labels pairs ctr).filterMap extractQuoted =
      pairs.map (fun rc => rc.2.triple) := by
  induction pairs generalizing ctr with
  | nil => rfl
  | cons rc rest ih =>
    simp [linkBlocks, List.filterMap_append, List.filterMap_cons, extractQuoted,
      annPOQuads_filterMap_quoted, ih]

theorem mem_matchPairs (idx : List (String × List CacheEntry)) (joinKey : String)
    (df : List Row) (rc : Row × CacheEntry) (h : rc ∈ matchPairs idx joinKey df) :
    rc.2 ∈ matchesFor idx joinKey rc.1 := by
  unfold matchPairs at h
  rw [List.mem_flatMap] at h
  obtain ⟨row, _, hm⟩ := h
  rw [List.mem_map] at hm
  obtain ⟨c, hc, hrc⟩ := hm
  rw [← hrc]
  exact hc

theorem mem_matchesFor_hasSeg (cacheAll : List CacheEntry) (joinKey : String)
    (row : Row) (c : CacheEntry)
    (h : c ∈ matchesFor (buildIndex cacheAll joinKey) joinKey row) :
    hasSeg "/dataset/".data c.triple.subj.data = true := by
  unfold matchesFor at h
  cases hr : rowGet row joinKey with
  | none =>
    rw [hr] at h
    exact absurd h (by simp)
  | some v =>
    rw [hr] at h
    exact ((mem_lookupIndex_buildIndex cacheAll joinKey v c).mp h).2.2.2

/-- C8: every `rdf:reifies` link emitted by Pass 2 targets a cached base
triple whose subject IRI contains the `/dataset/` namespace fragment — a
cached triple outside that namespace is never matched, even when its row
shares the join-key value.  Quantified over every configuration: no
hypotheses. -/
theorem pass2_namespace_filter (prefixes : List (String × String))
    (load : String → List Row) (cacheAll : List CacheEntry)
    (labels : Nat → Nat) (tm : TriplesMap) (ctr : Nat) :
    ((process_quoted_triples_map prefixes load cacheAll labels tm ctr).quads.filterMap
        extractQuoted).all
      (fun t => hasSeg "/dataset/".data t.subj.data) = true := by
  unfold process_quoted_triples_map
  split
  · rfl
  · split
    · rfl
    · split
      · rfl
      · split
        · rfl
        · rename_i source rests join_key hk
          simp only [pass2_outer_foldl, List.nil_append]
          rw [linkBlocks_filterMap_quoted]
          rw [List.all_eq_true]
          intro t ht
          rw [List.mem_map] at ht
          obtain ⟨rc, hrc, hteq⟩ := ht
          have h2 := mem_matchPairs _ _ _ _ hrc
          have h3 := mem_matchesFor_hasSeg cacheAll join_key rc.1 rc.2 h2
          rw [← hteq]
          exact h3

end Yarrrml

namespace Yarrrml

/-- C1 fixture: the specification's join-completeness scenario — three
cached triples sharing `id=42`, all inside the `/dataset/` namespace. -/
def cacheC1 : List CacheEntry :=
  [⟨[("id", "42")], ⟨"http://e.org/dataset/1", "http://e.org/p", Node.lit "a" none none⟩⟩,
   ⟨[("id", "42")], ⟨"http://e.org/dataset/2", "http://e.org/p", Node.lit "b" none none⟩⟩,
   ⟨[("id", "42")], ⟨"http://e.org/dataset/3", "http://e.org/p", Node.lit "c" none none⟩⟩]

/-- C1 fixture: a quoted annotation map joined on `id=id`. -/
def tmC1 : TriplesMap :=
  { sources := [⟨"a", "ann.csv", "csv"⟩],
    subject := ⟨none, true, some "base", some [("equal", "str1=$(id), str2=$(id)")], []⟩,
    predicate_objects := [⟨"ex:confidence", "$(confidence)", "literal", none, none, []⟩],
    type_statements := [],
    graphs := [] }

/-- C1 fixture: one annotation row `{id: "42", confidence: "0.9"}`. -/
def loadC1 : String → List Row := fun _ => [[("id", "42"), ("confidence", "0.9")]]

/-- C1 fixture: prefixes for the scenario. -/
def prefC1 : List (String × String) :=
  [("ex", "http://e.org/"), ("rdf", "http://www.w3.org/1999/02/22-rdf-syntax-ns#")]

/-- C1: one reifies link and one fresh blank reifier per matching
(annotation row, cached triple) pair.  The Pass-2 output is exactly the
block sequence of the matching pairs — one `rdf:reifies` link under a
fresh counter identity followed by that pair's annotation quads, one block
per pair, never merged — the counter advances by the number of pairs, the
reifier identities are pairwise distinct, and every emitted quad has a
blank subject (so no existing base triple is rewritten or deduplicated;
Pass 2 only adds new blank-rooted statements). -/
theorem pass2_one_reifier_per_matching_pair
    (prefixes : List (String × String)) (load : String → List Row)
    (cacheAll : List CacheEntry) (labels : Nat → Nat) (tm : TriplesMap)
    (ctr : Nat) (source : Source) (rest : List Source) (joinKey : String)
    (hq : tm.subject.is_quoted = true)
    (hr : isTruthy tm.subject.quoted_mapping_ref = true)
    (hc : cacheAll ≠ [])
    (hs : tm.sources = source :: rest)
    (hk : extract_join_key tm.subject.join_condition = some joinKey) :
    (process_quoted_triples_map prefixes load cacheAll labels tm ctr).quads =
      linkBlocks prefixes tm labels
        (matchPairs (buildIndex cacheAll joinKey) joinKey (load source.path)) ctr
    ∧ (process_quoted_triples_map prefixes load cacheAll labels tm ctr).counter =
        ctr + (matchPairs (buildIndex cacheAll joinKey) joinKey (load source.path)).length
    ∧ (blockReifiers (matchPairs (buildIndex cacheAll joinKey) joinKey (load source.path)) ctr).Nodup
    ∧ (process_quoted_triples_map prefixes load cacheAll labels tm ctr).quads.all
        blankSubject = true := by
  have hem : cacheAll.isEmpty = false := by
    cases cacheAll with
    | nil => exact absurd rfl hc
    | cons a l => rfl
  have hp : process_quoted_triples_map prefixes load cacheAll labels tm ctr =
      ⟨linkBlocks prefixes tm labels
         (matchPairs (buildIndex cacheAll joinKey) joinKey (load source.path)) ctr,
       ctr + (matchPairs (buildIndex cacheAll joinKey) joinKey (load source.path)).length,
       (matchPairs (buildIndex cacheAll joinKey) joinKey (load source.path)).length *
         tm.predicate_objects.length,
       []⟩ := by
    unfold process_quoted_triples_map
    rw [hq, hr, hem, hs, hk]
    simp only [Bool.and_self, Bool.not_true, Bool.false_eq_true, if_false,
      pass2_outer_foldl, List.nil_append, Nat.zero_add]
  refine ⟨?_, ?_, ?_, ?_⟩
  · rw [hp]
  · rw [hp]
  · rw [blockReifiers_eq_range']
    exact List.nodup_range' _ _
  · rw [hp]
    exact linkBlocks_all_blank prefixes tm labels _ ctr

/-- C1 witness: the specification's scenario — three cached triples share
`id=42` with one annotation row, producing exactly three matching pairs
and therefore three distinct fresh reifiers, one reifies link each. -/
theorem pass2_one_reifier_per_matching_pair_witness :
    (matchPairs (buildIndex cacheC1 "id") "id" (loadC1 "ann.csv")).length = 3 ∧
    ((process_quoted_triples_map prefC1 loadC1 cacheC1 (fun k => k) tmC1 0).quads =
       linkBlocks prefC1 tmC1 (fun k => k)
         (matchPairs (buildIndex cacheC1 "id") "id" (loadC1 "ann.csv")) 0
     ∧ (process_quoted_triples_map prefC1 loadC1 cacheC1 (fun k => k) tmC1 0).counter =
         0 + (matchPairs (buildIndex cacheC1 "id") "id" (loadC1 "ann.csv")).length
     ∧ (blockReifiers (matchPairs (buildIndex cacheC1 "id") "id" (loadC1 "ann.csv")) 0).Nodup
     ∧ (process_quoted_triples_map prefC1 loadC1 cacheC1 (fun k => k) tmC1 0).quads.all
         blankSubject = true) :=
  ⟨by decide,
   pass2_one_reifier_per_matching_pair prefC1 loadC1 cacheC1 (fun k => k) tmC1 0
     ⟨"a", "ann.csv", "csv"⟩ [] "id" rfl (by decide) (by decide) rfl (by decide)⟩

/-! ## Claim C2 -/

/-- Follows the specification's words (claim C2): a Join Condition is a
pair of variable names `(leftKey, rightKey)` and a pair "matches when the
annotation row's `rightKey` column equals the cached row's `leftKey`
column", the two values compared as strings. -/
def joinMatchSpec (leftKey rightKey : String) (annRow cachedRow : Row) : Bool :=
  match rowGet annRow rightKey, rowGet cachedRow leftKey with
  | some a, some b => a == b
  | _, _ => false

/-- C2 fixture: a quoted map whose join condition names two different
variables, `str1=$(a)` and `str2=$(b)`. -/
def tmC2 : TriplesMap :=
  { sources := [⟨"a", "ann.csv", "csv"⟩],
    subject := ⟨none, true, some "base", some [("equal", "str1=$(a), str2=$(b)")], []⟩,
    predicate_objects := [⟨"ex:conf", "$(b)", "literal", none, none, []⟩],
    type_statements := [],
    graphs := [] }

/-- C2 fixture: a cached entry with `a=1, b=2` and an in-namespace subject. -/
def cachedC2 : CacheEntry :=
  ⟨[("a", "1"), ("b", "2")],
   ⟨"http://e.org/dataset/x", "http://e.org/p", Node.lit "v" none none⟩⟩

/-- C2 fixture: an annotation row with `a=2, b=1`. -/
def annRowC2 : Row := [("a", "2"), ("b", "1")]

/-- C2 counterexample: under the claim the pair matches — the annotation
row's second-variable column equals the cached row's first-variable column
(and symmetrically under the opposite reading of left/right) — yet the
engine, which extracts only the `str1` variable and compares that single
column on both sides, emits nothing for this configuration. -/
theorem join_rightKey_ignored_counterexample :
    joinMatchSpec "a" "b" annRowC2 cachedC2.row_data = true ∧
    joinMatchSpec "b" "a" annRowC2 cachedC2.row_data = true ∧
    extract_join_key tmC2.subject.join_condition = some "a" ∧
    (process_quoted_triples_map [("ex", "http://e.org/")] (fun _ => [annRowC2])
        [cachedC2] (fun k => k) tmC2 0).quads = [] := by
  refine ⟨by decide, by decide, by decide, by decide⟩

/-- C2 amended: the executor extracts only the `str1` variable of the
`equal` parameter string and uses it as the single join key on both sides:
an annotation row matches a cached entry exactly when the cached entry
occurs in the cache, its subject IRI passes the `/dataset/` namespace
filter, and the two rows hold the same non-empty string value in the
join-key column; the `str2` variable plays no role, and values are
compared as strings with no coercion. -/
theorem join_single_key_amended (cacheAll : List CacheEntry) (joinKey : String)
    (row : Row) (c : CacheEntry) :
    c ∈ matchesFor (buildIndex cacheAll joinKey) joinKey row ↔
      (c ∈ cacheAll ∧ hasSeg "/dataset/".data c.triple.subj.data = true ∧
       ∃ v, v ≠ "" ∧ rowGet c.row_data joinKey = some v ∧
         rowGet row joinKey = some v) := by
  unfold matchesFor
  cases hr : rowGet row joinKey with
  | none =>
    simp only [hr]
    simp [hr]
  | some v =>
    simp only [hr]
    rw [mem_lookupIndex_buildIndex]
    constructor
    · rintro ⟨h1, h2, h3, h4⟩
      exact ⟨h1, h4, v, h3, h2, rfl⟩
    · rintro ⟨h1, h4, w, hne, hcv, hrv⟩
      have hwv : w = v := (Option.some.inj hrv).symm
      subst hwv
      exact ⟨h1, hcv, hne, h4⟩

end Yarrrml

namespace Yarrrml

/-! ## Claim C10 -/

/-- C10: in both passes, only the first declared source of a triples map is
ever consulted: processing a map whose source list is `s :: rest` is
identical to processing it with the single source `[s]` — the remaining
declared sources contribute nothing — and Pass 1 emits no warning for a
map with a nonempty source list (its only warning concerns an empty one);
the Pass-2 equality likewise carries the warnings, which never mention the
ignored sources. -/
theorem first_source_only (prefixes : List (String × String)) (rdfTypeUri : String)
    (load : String → List Row) (cacheAll : List CacheEntry) (labels : Nat → Nat)
    (tm : TriplesMap) (ctr : Nat) (s : Source) (rest : List Source) :
    process_triples_map_vectorized prefixes rdfTypeUri load
        { tm with sources := s :: rest } =
      process_triples_map_vectorized prefixes rdfTypeUri load
        { tm with sources := [s] }
    ∧ process_quoted_triples_map prefixes load cacheAll labels
        { tm with sources := s :: rest } ctr =
      process_quoted_triples_map prefixes load cacheAll labels
        { tm with sources := [s] } ctr
    ∧ (process_triples_map_vectorized prefixes rdfTypeUri load
        { tm with sources := s :: rest }).warnings = [] := by
  refine ⟨rfl, rfl, ?_⟩
  unfold process_triples_map_vectorized
  split
  · rfl
  · split
    · rename_i heq
      simp at heq
    · dsimp only
      split
      · rfl
      · split
        · rfl
        · split
          · rfl
          · rfl

end Yarrrml

namespace Yarrrml

/-! ## `add_metadata` and `run` -/

/-- Model of `if key not in prefixes: prefixes[key] = ns` — a missing prefix is
appended (Python dict insertion order). -/
def addMissingNamespace (p : List (String × String)) (k ns : String) : List (String × String) :=
  if (dictLookup p k).isSome then p else p ++ [(k, ns)]

/-- The essential prefixes ensured by `load_mapping`
(rdf_star_etl_yarrrml.py:160-166). -/
def ensureCorePrefixes (p : List (String × String)) : List (String × String) :=
  addMissingNamespace (addMissingNamespace (addMissingNamespace p
    "rdf" "http://www.w3.org/1999/02/22-rdf-syntax-ns#")
    "rdfs" "http://www.w3.org/2000/01/rdf-schema#")
    "xsd" "http://www.w3.org/2001/XMLSchema#"

/-- The metadata prefixes ensured by `add_metadata`
(rdf_star_etl_yarrrml.py:251-254). -/
def ensureMetaPrefixes (p : List (String × String)) : List (String × String) :=
  addMissingNamespace (addMissingNamespace p "dcat" "http://www.w3.org/ns/dcat#")
    "dct" "http://purl.org/dc/terms/"

/-- Model of `add_metadata` (rdf_star_etl_yarrrml.py:249-300): the dataset node
(base IRI or the example default, then `dataset/etl_import`) with its
type, title, description, creation timestamp (`datetime.now`, passed in as
`now`) and one creator statement per author. -/
def add_metadata (prefixes : List (String × String)) (base_iri : Option String)
    (authors : List (List (String × String))) (mappingFileName : String)
    (now : String) : List Quad :=
  let base := match base_iri with
              | some b => if b = "" then "http://example.org/" else b
              | none => "http://example.org/"
  let dataset := Node.iri (base ++ "dataset/etl_import")
  [⟨dataset, expand_uri "rdf:type" prefixes,
    QuadObj.node (Node.iri (expand_uri "dcat:Dataset" prefixes)), none⟩,
   ⟨dataset, expand_uri "dct:title" prefixes,
    QuadObj.node (Node.lit "ETL Pipeline Generated Dataset" none none), none⟩,
   ⟨dataset, expand_uri "dct:description" prefixes,
    QuadObj.node (Node.lit ("Generated from YARRRML mapping: " ++ mappingFileName)
      none none), none⟩,
   ⟨dataset, expand_uri "dct:created" prefixes,
    QuadObj.node (Node.lit now (some (expand_uri "xsd:dateTime" prefixes)) none),
    none⟩] ++
  authors.map (fun a =>
    let author_name := (dictLookup a "name").getD ((dictLookup a "webid").getD "Unknown")
    ⟨dataset, expand_uri "dct:creator" prefixes,
     QuadObj.node (Node.lit author_name none none), none⟩)

/-- The configuration a run derives from the YARRRML document: prefixes,
base IRI, authors, the mapping file's name, the triples maps in document
order, and the row loader (`load_csv_data`, modelled as a pure map from a
source path to its rows — the DataFrame cache is semantically
transparent). -/
structure EngineConfig where
  prefixes : List (String × String)
  base_iri : Option String
  authors : List (List (String × String))
  mappingFileName : String
  triples_maps : List (String × TriplesMap)
  sourceRows : String → List Row

/-- A completed run: store insertion order is metadata, then Pass-1
quads, then Pass-2 quads. -/
structure RunResult where
  metaQuads : List Quad
  baseQuads : List Quad
  cache : List CacheEntry
  annQuads : List Quad
  quotedCount : Nat
  warnings : List String
deriving DecidableEq

/-- One Pass-1 iteration of `run` (rdf_star_etl_yarrrml.py:579-581):
non-quoted maps are processed, quads, cache entries and warnings
accumulating in order. -/
def runPass1Step (prefixes : List (String × String)) (rdfTypeUri : String)
    (load : String → List Row) (acc : List Quad × List CacheEntry × List String)
    (nt : String × TriplesMap) : List Quad × List CacheEntry × List String :=
  if nt.2.subject.is_quoted then acc
  else
    let r := process_triples_map_vectorized prefixes rdfTypeUri load nt.2
    (acc.1 ++ r.quads, acc.2.1 ++ r.cache, acc.2.2 ++ r.warnings)

/-- One Pass-2 iteration of `run` (rdf_star_etl_yarrrml.py:588-590):
quoted maps are processed against the full Pass-1 cache, the blank
counter threading through. -/
def runPass2Step (prefixes : List (String × String)) (load : String → List Row)
    (cacheAll : List CacheEntry) (labels : Nat → Nat)
    (acc : List Quad × Nat × Nat × List String) (nt : String × TriplesMap) :
    List Quad × Nat × Nat × List String :=
  if nt.2.subject.is_quoted then
    let r := process_quoted_triples_map prefixes load cacheAll labels nt.2 acc.2.1
    (acc.1 ++ r.quads, r.counter, acc.2.2.1 + r.quotedCount, acc.2.2.2 ++ r.warnings)
  else acc

/-- Model of `run` (rdf_star_etl_yarrrml.py:560-609): load the mapping (prefix
defaults), add the ETL metadata (with the wall-clock timestamp `now`),
then Pass 1 over all maps in document order, then Pass 2.  `labels`
assigns the blank identities the store would create. -/
def run (labels : Nat → Nat) (now : String) (cfg : EngineConfig) : RunResult :=
  let prefixes1 := ensureCorePrefixes cfg.prefixes
  let rdfTypeUri := expand_uri "rdf:type" prefixes1
  let prefixes2 := ensureMetaPrefixes prefixes1
  let meta := add_metadata prefixes2 cfg.base_iri cfg.authors cfg.mappingFileName now
  let pass1 := cfg.triples_maps.foldl (runPass1Step prefixes2 rdfTypeUri cfg.sourceRows)
    ([], [], [])
  let pass2 := cfg.triples_maps.foldl
    (runPass2Step prefixes2 cfg.sourceRows pass1.2.1 labels) ([], 0, 0, [])
  ⟨meta, pass1.1, pass1.2.1, pass2.1, pass2.2.2.1, pass1.2.2 ++ pass2.2.2.2⟩

/-- All quads of a run, in store insertion order. -/
def allQuads (r : RunResult) : List Quad :=
  r.metaQuads ++ r.baseQuads ++ r.annQuads

end Yarrrml

namespace Yarrrml

/-! ## Blank relabelling and claim C9 -/

/-- Renaming of blank identities (the store assigns labels to
`BlankNode()`s; any two runs differ only by such a renaming). -/
def relabelNode (l : Nat → Nat) : Node → Node
  | Node.blank k => Node.blank (l k)
  | n => n

/-- Renaming of blank identities in a quad. -/
def relabelQuad (l : Nat → Nat) (q : Quad) : Quad :=
  ⟨relabelNode l q.subj, q.pred,
   (match q.obj with
    | QuadObj.node n => QuadObj.node (relabelNode l n)
    | QuadObj.quoted t => QuadObj.quoted t), q.graph⟩

theorem relabelNode_mkLiteral (l : Nat → Nat) (po : PredicateObject) (v : String)
    (p : List (String × String)) :
    relabelNode l (mkLiteral po v p) = mkLiteral po v p := by
  unfold mkLiteral mkLiteralLang
  cases po.datatype with
  | none =>
    cases po.language with
    | none => rfl
    | some lang =>
      by_cases h : lang = ""
      · simp [h, relabelNode]
      · simp [h, relabelNode]
  | some dt =>
    by_cases h : dt = ""
    · simp only [h, if_true]
      cases po.language with
      | none => rfl
      | some lang =>
        by_cases h2 : lang = ""
        · simp [h2, relabelNode]
        · simp [h2, relabelNode]
    · simp [h, relabelNode]

theorem annPOQuads_relabel (prefixes : List (String × String)) (tm : TriplesMap)
    (row : Row) (r : Nat) (l : Nat → Nat) :
    annPOQuads prefixes tm row r l =
      (annPOQuads prefixes tm row r (fun k => k)).map (relabelQuad l) := by
  unfold annPOQuads
  rw [List.map_map]
  apply List.map_congr_left
  intro po hpo
  simp only [Function.comp]
  by_cases h : (po.object_type == "iri") = true
  · simp only [h, if_true]
    rfl
  · simp only [h, Bool.false_eq_true, if_false]
    unfold relabelQuad
    simp only []
    rw [relabelNode_mkLiteral]
    rfl

theorem linkBlocks_relabel (prefixes : List (String × String)) (tm : TriplesMap)
    (l : Nat → Nat) (pairs : List (Row × CacheEntry)) (ctr : Nat) :
    linkBlocks prefixes tm l pairs ctr =
      (linkBlocks prefixes tm (fun k => k) pairs ctr).map (relabelQuad l) := by
  induction pairs generalizing ctr with
  | nil => rfl
  | cons rc rest ih =>
    simp only [linkBlocks, List.map_append, List.map_cons]
    rw [ih]
    rw [annPOQuads_relabel prefixes tm rc.1 ctr l]
    rfl

theorem process_quoted_relabel (prefixes : List (String × String))
    (load : String → List Row) (cacheAll : List CacheEntry) (l : Nat → Nat)
    (tm : TriplesMap) (ctr : Nat) :
    process_quoted_triples_map prefixes load cacheAll l tm ctr =
      ⟨((process_quoted_triples_map prefixes load cacheAll (fun k => k) tm ctr).quads).map
          (relabelQuad l),
       (process_quoted_triples_map prefixes load cacheAll (fun k => k) tm ctr).counter,
       (process_quoted_triples_map prefixes load cacheAll (fun k => k) tm ctr).quotedCount,
       (process_quoted_triples_map prefixes load cacheAll (fun k => k) tm ctr).warnings⟩ := by
  unfold process_quoted_triples_map
  split
  · simp
  · split
    · simp
    · split
      · simp
      · split
        · simp
        · simp only [pass2_outer_foldl, List.nil_append]
          conv_lhs => rw [linkBlocks_relabel]

theorem runPass2_foldl_relabel (prefixes : List (String × String))
    (load : String → List Row) (cacheAll : List CacheEntry) (l : Nat → Nat)
    (maps : List (String × TriplesMap)) (accId : List Quad) (ctr cnt : Nat)
    (ws : List String) :
    maps.foldl (runPass2Step prefixes load cacheAll l)
        (accId.map (relabelQuad l), ctr, cnt, ws) =
      (((maps.foldl (runPass2Step prefixes load cacheAll (fun k => k))
          (accId, ctr, cnt, ws)).1).map (relabelQuad l),
       (maps.foldl (runPass2Step prefixes load cacheAll (fun k => k))
          (accId, ctr, cnt, ws)).2) := by
  induction maps generalizing accId ctr cnt ws with
  | nil => rfl
  | cons nt rest ih =>
    simp only [List.foldl_cons, runPass2Step]
    by_cases hq : nt.2.subject.is_quoted = true
    · simp only [hq, if_true]
      rw [process_quoted_relabel prefixes load cacheAll l nt.2 ctr]
      rw [← List.map_append]
      exact ih (accId ++ _) _ _ _
    · simp only [hq]
      simp only [Bool.false_eq_true, if_false]
      exact ih accId ctr cnt ws

theorem pass2Components (prefixes : List (String × String))
    (load : String → List Row) (cacheAll : List CacheEntry) (l : Nat → Nat)
    (maps : List (String × TriplesMap)) :
    (maps.foldl (runPass2Step prefixes load cacheAll l) ([], 0, 0, [])).1 =
      ((maps.foldl (runPass2Step prefixes load cacheAll (fun k => k))
          ([], 0, 0, [])).1).map (relabelQuad l)
    ∧ (maps.foldl (runPass2Step prefixes load cacheAll l) ([], 0, 0, [])).2 =
      (maps.foldl (runPass2Step prefixes load cacheAll (fun k => k))
          ([], 0, 0, [])).2 := by
  have h := runPass2_foldl_relabel prefixes load cacheAll l maps [] 0 0 []
  simp only [List.map_nil] at h
  refine ⟨?_, ?_⟩ <;> rw [h]

end Yarrrml

namespace Yarrrml

/-- C9 fixture: a minimal configuration (no maps, no authors, no declared
prefixes). -/
def cfgC9 : EngineConfig :=
  { prefixes := [], base_iri := none, authors := [], mappingFileName := "m.yaml",
    triples_maps := [], sourceRows := fun _ => [] }

/-- C9 counterexample: the engine stamps every run with a
`dct:created` literal holding the wall-clock time (`datetime.now` in
`add_metadata`), so two runs of the very same mapping and rows at
different instants produce different base-triple sets: the first run's
creation statement is absent from the second run's output. -/
theorem run_timestamp_counterexample :
    (Quad.mk (Node.iri "http://example.org/dataset/etl_import")
        "http://purl.org/dc/terms/created"
        (QuadObj.node (Node.lit "2026-01-01T00:00:00+00:00"
          (some "http://www.w3.org/2001/XMLSchema#dateTime") none)) none) ∈
      allQuads (run (fun k => k) "2026-01-01T00:00:00+00:00" cfgC9) ∧
    (Quad.mk (Node.iri "http://example.org/dataset/etl_import")
        "http://purl.org/dc/terms/created"
        (QuadObj.node (Node.lit "2026-01-01T00:00:00+00:00"
          (some "http://www.w3.org/2001/XMLSchema#dateTime") none)) none) ∉
      allQuads (run (fun k => k) "2026-01-02T00:00:00+00:00" cfgC9) := by
  refine ⟨by decide, by decide⟩

/-- C9 amended: apart from the run-metadata timestamp statement, the
pipeline is deterministic for a fixed mapping and fixed row sequences:
any two runs — whatever blank labels the store hands out and whatever the
wall-clock reads — produce identical Pass-1 base quads, identical caches,
identical annotation counts and warnings, and annotation quads that are
blank-relabellings of one common canonical sequence (so blank identities
differ only in label, never in cardinality or linkage). -/
theorem run_deterministic_modulo_labels_and_timestamp (cfg : EngineConfig)
    (l1 l2 : Nat → Nat) (t1 t2 : String) :
    (run l1 t1 cfg).baseQuads = (run l2 t2 cfg).baseQuads
    ∧ (run l1 t1 cfg).cache = (run l2 t2 cfg).cache
    ∧ (run l1 t1 cfg).quotedCount = (run l2 t2 cfg).quotedCount
    ∧ (run l1 t1 cfg).warnings = (run l2 t2 cfg).warnings
    ∧ (run l1 t1 cfg).annQuads =
        ((run (fun k => k) t2 cfg).annQuads).map (relabelQuad l1)
    ∧ (run l2 t2 cfg).annQuads =
        ((run (fun k => k) t2 cfg).annQuads).map (relabelQuad l2)
    ∧ (run l1 t1 cfg).annQuads.length = (run l2 t2 cfg).annQuads.length := by
  have hann : ∀ (l : Nat → Nat) (t : String), (run l t cfg).annQuads =
      ((run (fun k => k) t2 cfg).annQuads).map (relabelQuad l) := by
    intro l t
    exact (pass2Components _ cfg.sourceRows _ l cfg.triples_maps).1
  have hcnt : ∀ (l : Nat → Nat) (t : String), (run l t cfg).quotedCount =
      (run (fun k => k) t2 cfg).quotedCount := by
    intro l t
    exact congrArg (fun p => p.2.1)
      (pass2Components _ cfg.sourceRows _ l cfg.triples_maps).2
  have hwarn : ∀ (l : Nat → Nat) (t : String), (run l t cfg).warnings =
      (run (fun k => k) t2 cfg).warnings := by
    intro l t
    exact congrArg (fun w => _ ++ w)
      (congrArg (fun p => p.2.2) (pass2Components _ cfg.sourceRows _ l cfg.triples_maps).2)
  refine ⟨rfl, rfl, ?_, ?_, hann l1 t1, hann l2 t2, ?_⟩
  · rw [hcnt l1 t1, hcnt l2 t2]
  · rw [hwarn l1 t1, hwarn l2 t2]
  · rw [hann l1 t1, hann l2 t2]
    simp [List.length_map]

end Yarrrml

namespace Yarrrml

/-! ## Claim C7: exception behaviour of row evaluation

The generation loops contain no `try`/`except`: the only handler in the
program is the blanket one in `main` (rdf_star_etl_yarrrml.py:682-691),
which prints the traceback and returns exit status 1.  Exceptions during
row evaluation arise at the store boundary: `pyoxigraph.NamedNode`
(an external collaborator, spec §6) validates its argument and raises
`ValueError` on an invalid IRI.  The definitions below embed the
direct-column IRI loop of `process_triples_map_vectorized`
(rdf_star_etl_yarrrml.py:361-382) with that validation made explicit; the
total model above is the same code on inputs where no exception occurs. -/

/-- The store's `NamedNode` constructor: rejects invalid IRIs.  We model
one sufficient rejection condition — the argument contains a space
character (never a valid IRI character). -/
def mkNamedNodeE (u : String) : Except String String :=
  if u.data.contains ' ' then Except.error ("Invalid IRI: " ++ u)
  else Except.ok u

/-- One row of the direct-column IRI loop
(rdf_star_etl_yarrrml.py:366-382), with the store's IRI validation: build
the subject node, then the object node (the raw cell value verbatim when
it already looks like an absolute `http(s)` IRI, the instantiated template
otherwise), then the quad.  Any validation failure propagates — there is
no per-row handler. -/
def rowEvalDirectIriE (prefixes : List (String × String)) (po : PredicateObject)
    (poGraph : Option String) (predicateUri : String) (col : String)
    (rs : Row × String) : Except String Quad := do
  let subject ← mkNamedNodeE rs.2
  let obj ←
    (match rowGet rs.1 col with
     | some v =>
       if v != "" && (startsWithSeg "http://".data v.data ||
                      startsWithSeg "https://".data v.data) then
         mkNamedNodeE v
       else mkNamedNodeE (instantiate_template_single po.value rs.1 prefixes)
     | none => mkNamedNodeE (instantiate_template_single po.value rs.1 prefixes))
  pure (create_quad_with_graph (Node.iri subject) predicateUri
    (QuadObj.node (Node.iri obj)) poGraph prefixes)

/-- The Python `for` loop: evaluate rows first to last, collecting results;
the first exception aborts the whole loop. -/
def mapME (f : Row × String → Except String Quad) :
    List (Row × String) → Except String (List Quad)
  | [] => Except.ok []
  | a :: as => do
    let b ← f a
    let bs ← mapME f as
    pure (b :: bs)

/-- The direct-column IRI loop over all rows
(rdf_star_etl_yarrrml.py:354-382): the predicate node is built once, then
every row is evaluated in order with no per-row handler. -/
def mapEvalDirectIriE (prefixes : List (String × String)) (po : PredicateObject)
    (poGraph : Option String) (col : String) (rows : List (Row × String)) :
    Except String (List Quad) := do
  let predicateUri ← mkNamedNodeE (expand_uri po.predicate prefixes)
  mapME (rowEvalDirectIriE prefixes po poGraph predicateUri col) rows

/-- Model of the blanket handler in `main` (rdf_star_etl_yarrrml.py:682-691): any
exception escaping the pipeline is printed and turned into exit status 1;
success returns 0. -/
def mainResultE (r : Except String (List Quad)) : Nat :=
  match r with
  | Except.ok _ => 0
  | Except.error _ => 1

/-- C7 fixtures: an IRI rule over a `url` column; one clean row and one
row whose raw value is an invalid IRI (contains a space). -/
def poC7 : PredicateObject := ⟨"ex:url", "$(url)", "iri", none, none, []⟩

/-- C7 fixture: prefixes. -/
def prefC7 : List (String × String) := [("ex", "http://e.org/")]

/-- C7 fixture: a row whose `url` cell is a well-formed absolute IRI. -/
def rowOkC7 : Row × String := ([("url", "http://ok.org/a")], "http://e.org/dataset/1")

/-- C7 fixture: a row whose `url` cell contains a space — `NamedNode`
raises on it. -/
def rowBadC7 : Row × String := ([("url", "http://bad .org/x")], "http://e.org/dataset/2")

/-- C7 counterexample: the first row evaluates cleanly to a quad, yet when
the second row raises, the whole loop returns the error — the clean row's
already-generated statement is discarded, no rows are skipped
individually, and the run exits with status 1.  This refutes the claim
that a per-row exception is caught, only that row skipped, and the
statements of other rows preserved. -/
theorem row_exception_counterexample :
    rowEvalDirectIriE prefC7 poC7 none "http://e.org/url" "url" rowOkC7 =
      Except.ok ⟨Node.iri "http://e.org/dataset/1", "http://e.org/url",
        QuadObj.node (Node.iri "http://ok.org/a"), none⟩ ∧
    rowEvalDirectIriE prefC7 poC7 none "http://e.org/url" "url" rowBadC7 =
      Except.error "Invalid IRI: http://bad .org/x" ∧
    mapEvalDirectIriE prefC7 poC7 none "url" [rowOkC7, rowBadC7] =
      Except.error "Invalid IRI: http://bad .org/x" ∧
    mainResultE (mapEvalDirectIriE prefC7 poC7 none "url" [rowOkC7, rowBadC7]) = 1 := by
  refine ⟨rfl, rfl, rfl, rfl⟩

/-- C7 amended: there is no per-row exception handling — an exception
while evaluating any single row propagates out of the whole map's loop
(discarding every statement of that map, including those of rows already
evaluated), and the top-level handler turns it into exit status 1. -/
theorem row_exception_aborts_run (prefixes : List (String × String))
    (po : PredicateObject) (poGraph : Option String) (predicateUri col : String)
    (rows : List (Row × String)) (rs : Row × String) (e : String)
    (hpred : mkNamedNodeE (expand_uri po.predicate prefixes) = Except.ok predicateUri)
    (hmem : rs ∈ rows)
    (hrow : rowEvalDirectIriE prefixes po poGraph predicateUri col rs =
      Except.error e) :
    (∃ e₂, mapEvalDirectIriE prefixes po poGraph col rows = Except.error e₂) ∧
    mainResultE (mapEvalDirectIriE prefixes po poGraph col rows) = 1 := by
  have hmap : ∃ e₂, mapME (rowEvalDirectIriE prefixes po poGraph predicateUri col)
      rows = Except.error e₂ := by
    clear hpred
    induction rows with
    | nil => exact absurd hmem (by simp)
    | cons a as ih =>
      rw [List.mem_cons] at hmem
      cases hmem with
      | inl ha =>
        subst ha
        refine ⟨e, ?_⟩
        show Except.bind (rowEvalDirectIriE prefixes po poGraph predicateUri col rs)
          _ = Except.error e
        rw [hrow]
        rfl
      | inr ha =>
        cases hf : rowEvalDirectIriE prefixes po poGraph predicateUri col a with
        | error e₃ =>
          refine ⟨e₃, ?_⟩
          show Except.bind (rowEvalDirectIriE prefixes po poGraph predicateUri col a)
            _ = Except.error e₃
          rw [hf]
          rfl
        | ok q =>
          obtain ⟨e₂, he₂⟩ := ih ha
          refine ⟨e₂, ?_⟩
          show Except.bind (rowEvalDirectIriE prefixes po poGraph predicateUri col a)
            _ = Except.error e₂
          rw [hf]
          show Except.bind (mapME (rowEvalDirectIriE prefixes po poGraph predicateUri col) as)
            _ = Except.error e₂
          rw [he₂]
          rfl
  obtain ⟨e₂, he₂⟩ := hmap
  have hfull : mapEvalDirectIriE prefixes po poGraph col rows = Except.error e₂ := by
    unfold mapEvalDirectIriE
    rw [hpred]
    show mapME (rowEvalDirectIriE prefixes po poGraph predicateUri col) rows =
      Except.error e₂
    exact he₂
  exact ⟨⟨e₂, hfull⟩, by rw [hfull]; rfl⟩

/-- C7 amended, witness: at the fixture, the loop fails with the bad
row's error and the exit status is 1. -/
theorem row_exception_aborts_run_witness :
    (∃ e₂, mapEvalDirectIriE prefC7 poC7 none "url" [rowOkC7, rowBadC7] =
      Except.error e₂) ∧
    mainResultE (mapEvalDirectIriE prefC7 poC7 none "url" [rowOkC7, rowBadC7]) = 1 :=
  row_exception_aborts_run prefC7 poC7 none "http://e.org/url" "url"
    [rowOkC7, rowBadC7] rowBadC7 "Invalid IRI: http://bad .org/x"
    rfl (by simp [rowOkC7, rowBadC7]) rfl

end Yarrrml
